import Mathlib

/-!
Shallow embedding of astrometry_wrapper/commands.py (vterron/astrometry-wrapper).

Paths and command-line arguments are modelled as lists of characters
(abbrev Str). The nondeterministic ingredients of a call to solve_field
(the random components chosen by tempfile, the behaviour of the external
process, and the content of the sentinel file the process leaves behind)
are packaged in an Invocation record; the function solveField then mirrors
the Python control flow, returning the outcome together with the final
filesystem state and the traces of process launches and sentinel reads.
-/

namespace AW

abbrev Str := List Char

/-! ## os.path helpers (posixpath), translated from CPython -/

/-- Index of the last occurrence of a character, as in Python str.rfind
(none when the character does not occur). -/
def rfind (c : Char) : Str → Option Nat
  | [] => none
  | a :: rest =>
    match rfind c rest with
    | some i => some (i + 1)
    | none => if a = c then some 0 else none

/-- posixpath.basename: everything after the last slash. -/
def basename (p : Str) : Str :=
  match rfind '/' p with
  | none => p
  | some i => p.drop (i + 1)

/-- genericpath._splitext with sep = slash, extsep = dot: split off the
extension at the last dot, provided that dot lies after the last slash and
the basename has at least one non-dot character before it. -/
def splitext (p : Str) : Str × Str :=
  match rfind '.' p with
  | none => (p, [])
  | some d =>
    match rfind '/' p with
    | none =>
      if (p.take d).any (fun c => c != '.') then (p.take d, p.drop d) else (p, [])
    | some s =>
      if ((p.drop (s + 1)).take (d - (s + 1))).any (fun c => c != '.') then
        (p.take d, p.drop d)
      else (p, [])

/-- Last character of a string, if any. -/
def lastChar? : Str → Option Char
  | [] => none
  | [c] => some c
  | _ :: rest => lastChar? rest

/-- posixpath.join for two components: the second component wins if it is
absolute; otherwise a slash is inserted unless the first component is empty
or already ends in a slash. -/
def pyJoin (a b : Str) : Str :=
  if b.head? = some '/' then b
  else if a = [] then a ++ b
  else if lastChar? a = some '/' then a ++ b
  else a ++ '/' :: b

/-- The name tempfile allocates in directory dir with the given prefix and
suffix keyword arguments; uniq stands for the random component of the name
(tempfile draws it from [a-z0-9], in particular it contains no slash). -/
def tmpName (dir pre uniq suf : Str) : Str := dir ++ '/' :: (pre ++ uniq ++ suf)

/-! ## Filesystem model: a set of paths, and shutil.rmtree -/

/-- Boolean test that the first string is an initial segment of the second. -/
def strStarts : Str → Str → Bool
  | [], _ => true
  | _ :: _, [] => false
  | a :: as, b :: bs => a == b && strStarts as bs

/-- A path lies inside the tree rooted at dir: it is dir itself or has
dir followed by a slash as an initial segment. -/
def underTree (dir p : Str) : Bool :=
  p == dir || strStarts (dir ++ ['/']) p

/-- shutil.rmtree dir: every path in the tree rooted at dir disappears,
every other path is untouched. -/
def rmtree (dir : Str) (fs : List Str) : List Str :=
  fs.filter (fun p => !(underTree dir p))

/-! ## The PATH scan of the _check_installation decorator -/

/-- A directory entry: a name plus its executable permission bit.
The permission bit exists only so the behaviour of os.path.exists
(which ignores it) can be compared with the specification text. -/
structure DirEnt where
  name : Str
  exec : Bool
deriving DecidableEq

/-- ASTROMETRY_COMMAND in commands.py. -/
def solveFieldCmd : Str := "solve-field".toList

/-- The scan in _check_installation: for each directory on PATH, test
os.path.exists(os.path.join(dir, ASTROMETRY_COMMAND)) — a mere existence
check on the entry name, ignoring the executable bit. -/
def commandFound (dirs : List (List DirEnt)) : Bool :=
  dirs.any (fun d => d.any (fun e => e.name == solveFieldCmd))

/-- Modelled from the spec: the Availability Prober as section 4.1 words it,
scanning every PATH directory for an executable file named solve-field.
Kept separate from commandFound (the translation of the source) so the two
can be compared. -/
def specIsAvailable (dirs : List (List DirEnt)) : Bool :=
  dirs.any (fun d => d.any (fun e => e.name == solveFieldCmd && e.exec))

/-! ## Keyword-option rendering -/

/-- Python str applied to an option value: values are modelled already
stringified (some v), except for Python None, whose str form is the four
characters None. -/
def pyStrOfOpt : Option Str → Str
  | none => "None".toList
  | some v => v

/-- One options.items() entry, as rendered by the loop in solve_field:
the dash-prefixed key (one dash for a single-character key, two otherwise)
followed unconditionally by str(value). -/
def renderOption (kv : Str × Option Str) : List Str :=
  [List.replicate (if kv.1.length = 1 then 1 else 2) '-' ++ kv.1, pyStrOfOpt kv.2]

/-- The full list of extra arguments contributed by the keyword options,
in insertion order (Python dicts preserve it). -/
def renderOptions (opts : List (Str × Option Str)) : List Str :=
  (opts.map renderOption).flatten

/-! ## The external process and the outcome of solve_field -/

/-- Behaviour of the subprocess.check_call launch: normal exit with code 0,
a nonzero exit code (check_call then raises CalledProcessError), or an
OSError from the launch itself (OSError and IOError are the same class in
Python 3). -/
inductive ProcResult where
  | ok
  | fail (code : Nat)
  | launchIOError
deriving DecidableEq

/-- Python ord applied to the bytes object returned by fd.read(): defined
only on a length-one bytes object, otherwise ord raises TypeError. -/
def pyOrd : List Nat → Option Nat
  | [b] => some b
  | _ => none

/-- How a call to solve_field ends, seen from the caller.
solved: the output path is returned. unsolvedField: the
AstrometryNetUnsolvedField exception, carrying the input path.
processError: the CalledProcessError from check_call, carrying the exit
code and the full argument list. typeErrorCrash: the uncaught TypeError
from ord on a read of length other than one. sysExit: the decorator
printed its message and called sys.exit. toolNotInstalled is modelled from
the spec (section 7 error taxonomy); the translated code never produces it
and it exists only so statements about it can be written down. -/
inductive Outcome where
  | solved (artifact : Str)
  | unsolvedField (input : Str)
  | processError (code : Nat) (cmd : List Str)
  | typeErrorCrash
  | sysExit (code : Nat)
  | toolNotInstalled
deriving DecidableEq

/-- Boolean discriminator for the spec-modelled toolNotInstalled outcome. -/
def isToolNotInstalled : Outcome → Bool
  | Outcome.toolNotInstalled => true
  | _ => false

/-- Everything a single call of solve_field depends on: the (already
split) PATH environment, the input path and keyword options, the system
temporary directory and the random name components chosen by tempfile, the
behaviour of the external process, the content of the sentinel file after
the process ran (none: absent or unreadable), and the set of filesystem
paths present at the moment the finally block runs. -/
structure Invocation where
  pathDirs : List (List DirEnt)
  path : Str
  options : List (Str × Option Str)
  tmpDir : Str
  wUniq : Str
  aUniq : Str
  proc : ProcResult
  sentinel : Option (List Nat)
  fs : List Str

/-- root, as computed at the top of solve_field. -/
def rootOf (inv : Invocation) : Str := (splitext (basename inv.path)).1

/-- ext, as computed at the top of solve_field. -/
def extOf (inv : Invocation) : Str := (splitext (basename inv.path)).2

/-- output_dir = tempfile.mkdtemp(prefix = root + underscore,
suffix = _astrometry.net), in the system temporary directory. -/
def workspaceOf (inv : Invocation) : Str :=
  tmpName inv.tmpDir (rootOf inv ++ ['_']) inv.wUniq "_astrometry.net".toList

/-- output_path: the name drawn by tempfile.NamedTemporaryFile with
prefix root_astrometry_ and suffix ext, in the system temporary directory
(the default dir argument). -/
def artifactOf (inv : Invocation) : Str :=
  tmpName inv.tmpDir (rootOf inv ++ "_astrometry_".toList) inv.aUniq (extOf inv)

/-- solved_file = os.path.join(output_dir, root + .solved). -/
def solvedFileOf (inv : Invocation) : Str :=
  pyJoin (workspaceOf inv) (rootOf inv ++ ".solved".toList)

/-- The argument list handed to subprocess.check_call: the fixed prefix
built in solve_field followed by the rendered keyword options. -/
def argsOf (inv : Invocation) : List Str :=
  [solveFieldCmd, inv.path,
   "--dir".toList, workspaceOf inv,
   "--no-plots".toList,
   "--new-fits".toList, artifactOf inv,
   "--no-fits2fits".toList,
   "--overwrite".toList] ++ renderOptions inv.options

/-- The try block of solve_field together with its except clauses.
On a nonzero exit, check_call raises CalledProcessError; the first handler
re-raises it unchanged. On an OSError from the launch, the IOError handler
turns it into AstrometryNetUnsolvedField(path). On a zero exit the sentinel
is opened: an open failure is an IOError, hence unsolvedField; otherwise
ord(fd.read()) is compared with 1 — a read whose length is not one makes
ord raise TypeError, which no handler catches. The AstrometryNetUnsolvedField
raised on a non-one byte is caught by the CalledProcessError handler (it is
a subclass) and re-raised as the same object. -/
def tryBodyOutcome (inv : Invocation) : Outcome :=
  match inv.proc with
  | ProcResult.launchIOError => Outcome.unsolvedField inv.path
  | ProcResult.fail c => Outcome.processError c (argsOf inv)
  | ProcResult.ok =>
    match inv.sentinel with
    | none => Outcome.unsolvedField inv.path
    | some bs =>
      match pyOrd bs with
      | none => Outcome.typeErrorCrash
      | some b => if b = 1 then Outcome.solved (artifactOf inv) else Outcome.unsolvedField inv.path

/-- The paths solve_field attempts to open for reading: the sentinel file,
and only after a zero process exit. -/
def sentinelReadsOf (inv : Invocation) : List Str :=
  match inv.proc with
  | ProcResult.ok => [solvedFileOf inv]
  | _ => []

/-- Observable result of one call of solve_field: the outcome, the
filesystem after the finally block, the argument vectors launched, and the
paths opened for reading. -/
structure RunTrace where
  outcome : Outcome
  fs : List Str
  calls : List (List Str)
  reads : List Str
deriving DecidableEq

/-- solve_field with its _check_installation decorator. If no PATH
directory has an entry named solve-field, the decorator prints a message
and calls sys.exit(1): nothing is created, launched or read. Otherwise the
body runs; whatever branch the try block takes, the finally clause removes
the workspace tree before control returns. -/
def solveField (inv : Invocation) : RunTrace :=
  if commandFound inv.pathDirs = true then
    { outcome := tryBodyOutcome inv
      fs := rmtree (workspaceOf inv) inv.fs
      calls := [argsOf inv]
      reads := sentinelReadsOf inv }
  else
    { outcome := Outcome.sysExit 1, fs := inv.fs, calls := [], reads := [] }

/-! ## The exception class hierarchy relevant to the module -/

/-- The exception classes a caller of solve_field can meet. -/
inductive ExcClass where
  | exceptionBase
  | calledProcessError
  | astrometryNetUnsolvedField
  | ioErrorCls
  | typeErrorCls
deriving DecidableEq

/-- Superclass chains, from the source (class AstrometryNetUnsolvedField
extends subprocess.CalledProcessError) and the standard library. -/
def ancestors : ExcClass → List ExcClass
  | ExcClass.exceptionBase => [ExcClass.exceptionBase]
  | ExcClass.calledProcessError => [ExcClass.calledProcessError, ExcClass.exceptionBase]
  | ExcClass.astrometryNetUnsolvedField =>
      [ExcClass.astrometryNetUnsolvedField, ExcClass.calledProcessError, ExcClass.exceptionBase]
  | ExcClass.ioErrorCls => [ExcClass.ioErrorCls, ExcClass.exceptionBase]
  | ExcClass.typeErrorCls => [ExcClass.typeErrorCls, ExcClass.exceptionBase]

/-- A handler clause for class h catches a raised instance of class r
exactly when h is r or an ancestor of r. -/
def catchesB (h r : ExcClass) : Bool := (ancestors r).contains h

/-! ## image2xy -/

/-- Result of image2xy: the returned output path, the CalledProcessError
from check_output on a nonzero exit, or an OSError from the launch. -/
inductive XYResult where
  | ok (out : Str)
  | procError (code : Nat) (cmd : List Str)
  | ioError
deriving DecidableEq

/-- The output path image2xy allocates: a NamedTemporaryFile name with
prefix root_sources_ and suffix .fits in the system temporary directory. -/
def image2xyOut (path tmpDir uniq : Str) : Str :=
  tmpName tmpDir ((splitext (basename path)).1 ++ "_sources_".toList) uniq ".fits".toList

/-- The argument list image2xy hands to subprocess.check_output. -/
def image2xyArgsOf (path tmpDir uniq : Str) : List Str :=
  ["image2xy".toList, path, "-o".toList, image2xyOut path tmpDir uniq]

/-- image2xy from commands.py: allocate the output name, run check_output
synchronously, return the output path on a zero exit; check_output raises
CalledProcessError on a nonzero exit, and a launch OSError propagates. -/
def image2xy (path tmpDir uniq : Str) (proc : ProcResult) : XYResult :=
  match proc with
  | ProcResult.ok => XYResult.ok (image2xyOut path tmpDir uniq)
  | ProcResult.fail c => XYResult.procError c (image2xyArgsOf path tmpDir uniq)
  | ProcResult.launchIOError => XYResult.ioError

/-! ## Concrete invocations used in witnesses and counterexamples -/

/-- A concrete invocation in which the tool is installed, the process
exits zero and the sentinel holds the single byte 1; the filesystem holds
the workspace, the sentinel and the output artifact. -/
def okInv : Invocation :=
  { pathDirs := [[{ name := solveFieldCmd, exec := true }]]
    path := "img.fits".toList
    options := [("w".toList, some "681".toList)]
    tmpDir := "/tmp".toList
    wUniq := "w1".toList
    aUniq := "a1".toList
    proc := ProcResult.ok
    sentinel := some [1]
    fs := ["/tmp/img_w1_astrometry.net".toList,
           "/tmp/img_w1_astrometry.net/img.solved".toList,
           "/tmp/img_astrometry_a1.fits".toList] }

/-- Like okInv but the external process exits with code 2. -/
def failInv : Invocation := { okInv with proc := ProcResult.fail 2 }

/-- Like okInv but no PATH directory has an entry named solve-field. -/
def noToolInv : Invocation :=
  { okInv with pathDirs := [[{ name := "ls".toList, exec := true }]] }

/-- One PATH directory whose solve-field entry lacks the executable bit. -/
def nonExecDirs : List (List DirEnt) :=
  [[{ name := solveFieldCmd, exec := false }]]

/-! ## Helper lemmas -/

theorem not_mem_of_rfind_none (c : Char) (p : Str) (h : rfind c p = none) : c ∉ p := by
  induction p with
  | nil => simp
  | cons a as ih =>
    cases hr : rfind c as with
    | some i => simp [rfind, hr] at h
    | none =>
      simp only [rfind, hr] at h
      by_cases hac : a = c
      · simp [hac] at h
      · intro hmem
        rcases List.mem_cons.mp hmem with h1 | h2
        · exact hac h1.symm
        · exact ih hr h2

theorem not_mem_drop_of_rfind (c : Char) (p : Str) (i : Nat) (h : rfind c p = some i) :
    c ∉ p.drop (i + 1) := by
  induction p generalizing i with
  | nil => simp [rfind] at h
  | cons a as ih =>
    cases hr : rfind c as with
    | some j =>
      simp only [rfind, hr, Option.some.injEq] at h
      subst h
      show c ∉ (a :: as).drop (j + 1 + 1)
      rw [List.drop_succ_cons]
      exact ih j hr
    | none =>
      simp only [rfind, hr] at h
      by_cases hac : a = c
      · rw [if_pos hac] at h
        injection h with h
        subst h
        rw [List.drop_succ_cons]
        simpa using not_mem_of_rfind_none c as hr
      · rw [if_neg hac] at h
        exact absurd h (by simp)

theorem slash_not_mem_basename (p : Str) : '/' ∉ basename p := by
  cases h : rfind '/' p with
  | none => simpa [basename, h] using not_mem_of_rfind_none '/' p h
  | some i => simpa [basename, h] using not_mem_drop_of_rfind '/' p i h

theorem splitext_fst_eq (q : Str) : (splitext q).1 = q ∨ ∃ d, (splitext q).1 = q.take d := by
  unfold splitext
  cases rfind '.' q with
  | none => exact Or.inl rfl
  | some d =>
    cases rfind '/' q with
    | none =>
      by_cases hc : ((q.take d).any fun c => c != '.') = true
      · exact Or.inr ⟨d, by dsimp only; rw [if_pos hc]⟩
      · exact Or.inl (by dsimp only; rw [if_neg hc])
    | some s =>
      by_cases hc : (((q.drop (s + 1)).take (d - (s + 1))).any fun c => c != '.') = true
      · exact Or.inr ⟨d, by dsimp only; rw [if_pos hc]⟩
      · exact Or.inl (by dsimp only; rw [if_neg hc])

theorem splitext_snd_eq (q : Str) : (splitext q).2 = [] ∨ ∃ d, (splitext q).2 = q.drop d := by
  unfold splitext
  cases rfind '.' q with
  | none => exact Or.inl rfl
  | some d =>
    cases rfind '/' q with
    | none =>
      by_cases hc : ((q.take d).any fun c => c != '.') = true
      · exact Or.inr ⟨d, by dsimp only; rw [if_pos hc]⟩
      · exact Or.inl (by dsimp only; rw [if_neg hc])
    | some s =>
      by_cases hc : (((q.drop (s + 1)).take (d - (s + 1))).any fun c => c != '.') = true
      · exact Or.inr ⟨d, by dsimp only; rw [if_pos hc]⟩
      · exact Or.inl (by dsimp only; rw [if_neg hc])

theorem not_mem_splitext_fst (x : Char) (q : Str) (h : x ∉ q) : x ∉ (splitext q).1 := by
  rcases splitext_fst_eq q with he | ⟨d, he⟩
  · rw [he]; exact h
  · rw [he]; exact fun hx => h (List.take_subset _ _ hx)

theorem not_mem_splitext_snd (x : Char) (q : Str) (h : x ∉ q) : x ∉ (splitext q).2 := by
  rcases splitext_snd_eq q with he | ⟨d, he⟩
  · rw [he]; simp
  · rw [he]; exact fun hx => h (List.drop_subset _ _ hx)

theorem slash_not_mem_rootOf (inv : Invocation) : '/' ∉ rootOf inv :=
  not_mem_splitext_fst _ _ (slash_not_mem_basename _)

theorem slash_not_mem_extOf (inv : Invocation) : '/' ∉ extOf inv :=
  not_mem_splitext_snd _ _ (slash_not_mem_basename _)

theorem lastChar?_cons_ne (x : Char) (l : Str) (h : l ≠ []) :
    lastChar? (x :: l) = lastChar? l := by
  cases l with
  | nil => exact absurd rfl h
  | cons c cs => rfl

theorem lastChar?_append (a b : Str) (h : b ≠ []) : lastChar? (a ++ b) = lastChar? b := by
  induction a with
  | nil => rfl
  | cons x xs ih =>
    have hne : xs ++ b ≠ [] := fun hc => h (List.append_eq_nil.mp hc).2
    rw [List.cons_append, lastChar?_cons_ne x _ hne, ih]

theorem strStarts_append_same (t a b : Str) : strStarts (t ++ a) (t ++ b) = strStarts a b := by
  induction t with
  | nil => rfl
  | cons c cs ih => simp [strStarts, ih]

theorem mem_of_strStarts (a b : Str) (h : strStarts a b = true) : ∀ x ∈ a, x ∈ b := by
  induction a generalizing b with
  | nil => intro x hx; simp at hx
  | cons c cs ih =>
    cases b with
    | nil => simp [strStarts] at h
    | cons d ds =>
      rw [strStarts, Bool.and_eq_true] at h
      intro x hx
      rcases List.mem_cons.mp hx with rfl | hx2
      · exact List.mem_cons.mpr (Or.inl (eq_of_beq h.1))
      · exact List.mem_cons.mpr (Or.inr (ih ds h.2 x hx2))

theorem workspaceOf_ne_nil (inv : Invocation) : workspaceOf inv ≠ [] := by
  unfold workspaceOf tmpName
  intro hcon
  have h2 := (List.append_eq_nil.mp hcon).2
  simp at h2

theorem lastChar?_workspaceOf (inv : Invocation) : lastChar? (workspaceOf inv) = some 't' := by
  unfold workspaceOf tmpName
  have h1 : ('/' : Char) ::
      ((rootOf inv ++ ['_']) ++ inv.wUniq ++ "_astrometry.net".toList) ≠ [] := by simp
  rw [lastChar?_append _ _ h1]
  have h2 : ((rootOf inv ++ ['_']) ++ inv.wUniq ++ "_astrometry.net".toList) ≠ [] := by simp
  rw [lastChar?_cons_ne _ _ h2]
  have h3 : ("_astrometry.net".toList : Str) ≠ [] := by decide
  rw [lastChar?_append _ _ h3]
  decide

theorem solvedFileOf_eq (inv : Invocation) :
    solvedFileOf inv = workspaceOf inv ++ '/' :: (rootOf inv ++ ".solved".toList) := by
  have hroot : '/' ∉ rootOf inv := slash_not_mem_rootOf inv
  have hb : (rootOf inv ++ ".solved".toList).head? ≠ some '/' := by
    cases hr : rootOf inv with
    | nil => simp
    | cons c cs =>
      simp only [List.cons_append, List.head?_cons]
      intro hcon
      injection hcon with hc
      apply hroot
      rw [hr, hc]
      exact List.mem_cons_self _ _
  have hlast : lastChar? (workspaceOf inv) ≠ some '/' := by
    rw [lastChar?_workspaceOf]
    simp
  unfold solvedFileOf pyJoin
  rw [if_neg hb, if_neg (workspaceOf_ne_nil inv), if_neg hlast]

theorem artifactOf_structure (inv : Invocation) :
    artifactOf inv =
      inv.tmpDir ++ '/' ::
        ((rootOf inv ++ "_astrometry_".toList) ++ inv.aUniq ++ extOf inv) := rfl

theorem artifact_not_under_workspace (inv : Invocation)
    (ha : ('/' : Char) ∉ inv.aUniq)
    (hne : artifactOf inv ≠ workspaceOf inv) :
    underTree (workspaceOf inv) (artifactOf inv) = false := by
  unfold underTree
  have h1 : (artifactOf inv == workspaceOf inv) = false := by
    cases hb : artifactOf inv == workspaceOf inv with
    | false => rfl
    | true => exact absurd (eq_of_beq hb) hne
  rw [h1]
  have hslash : ('/' : Char) ∉
      (rootOf inv ++ "_astrometry_".toList) ++ inv.aUniq ++ extOf inv := by
    intro hmem
    rcases List.mem_append.mp hmem with hmem1 | hmem2
    · rcases List.mem_append.mp hmem1 with hmem3 | hmem4
      · rcases List.mem_append.mp hmem3 with h5 | h6
        · exact slash_not_mem_rootOf inv h5
        · revert h6; decide
      · exact ha hmem4
    · exact slash_not_mem_extOf inv hmem2
  cases hs : strStarts (workspaceOf inv ++ ['/']) (artifactOf inv) with
  | false => rfl
  | true =>
    exfalso
    have e1 : workspaceOf inv ++ ['/'] =
        (inv.tmpDir ++ ['/']) ++
          (((rootOf inv ++ ['_']) ++ inv.wUniq ++ "_astrometry.net".toList) ++ ['/']) := by
      unfold workspaceOf tmpName
      simp
    have e2 : artifactOf inv =
        (inv.tmpDir ++ ['/']) ++
          ((rootOf inv ++ "_astrometry_".toList) ++ inv.aUniq ++ extOf inv) := by
      unfold artifactOf tmpName
      simp
    rw [e1, e2, strStarts_append_same] at hs
    exact hslash (mem_of_strStarts _ _ hs '/' (by simp))

/-! ## Claim theorems -/

/-- C1 (code bug): with the tool installed, a zero process exit and a
sentinel file that exists but is zero-length, solve_field neither returns
the artifact nor raises AstrometryNetUnsolvedField: fd.read() yields an
empty bytes object and ord raises an uncaught TypeError, although the code
comments and the docstring promise AstrometryNetUnsolvedField whenever the
sentinel does not contain a binary one. The remaining conjuncts record the
behaviour the claim describes correctly: absent sentinel and a single zero
byte give unsolvedField, a single one byte gives solved. -/
theorem solve_field_empty_sentinel_type_error :
    (solveField { okInv with sentinel := some [] }).outcome = Outcome.typeErrorCrash ∧
    (solveField { okInv with sentinel := some [] }).outcome ≠
      Outcome.unsolvedField okInv.path ∧
    (solveField okInv).outcome = Outcome.solved (artifactOf okInv) ∧
    (solveField { okInv with sentinel := some [0] }).outcome =
      Outcome.unsolvedField okInv.path ∧
    (solveField { okInv with sentinel := none }).outcome =
      Outcome.unsolvedField okInv.path := by decide

/-- C2: whenever the decorator lets the body run, every path in the tree
rooted at the workspace directory — the workspace itself included — is gone
from the filesystem solve_field leaves behind, whatever the process result
and sentinel content were (solved, unsolved, nonzero exit, launch failure,
and the uncaught TypeError path alike). -/
theorem solve_field_workspace_removed (inv : Invocation)
    (h : commandFound inv.pathDirs = true) (p : Str)
    (hp : underTree (workspaceOf inv) p = true) :
    p ∉ (solveField inv).fs := by
  intro hmem
  have hfs : (solveField inv).fs = rmtree (workspaceOf inv) inv.fs := by
    simp [solveField, h]
  rw [hfs] at hmem
  have h2 := (List.mem_filter.mp hmem).2
  rw [hp] at h2
  simp at h2

/-- Witness for C2 at a concrete invocation: the workspace path itself is
in the removed tree and absent from the final filesystem. -/
theorem solve_field_workspace_removed_witness :
    commandFound okInv.pathDirs = true ∧
    underTree (workspaceOf okInv) (workspaceOf okInv) = true ∧
    workspaceOf okInv ∉ (solveField okInv).fs :=
  ⟨by decide, by decide,
   solve_field_workspace_removed okInv (by decide) (workspaceOf okInv) (by decide)⟩

/-- C3: when the external process exits with a nonzero code, check_call
raises CalledProcessError and solve_field propagates it carrying the exit
code and the full argument list; the sentinel file is never opened, and the
outcome is processError whatever the sentinel content is — never
downgraded to unsolvedField. -/
theorem solve_field_nonzero_exit_process_error (inv : Invocation) (c : Nat)
    (hc : c ≠ 0) (hproc : inv.proc = ProcResult.fail c)
    (h : commandFound inv.pathDirs = true) :
    (solveField inv).outcome = Outcome.processError c (argsOf inv) ∧
    (solveField inv).reads = [] := by
  constructor
  · simp [solveField, h, tryBodyOutcome, hproc]
  · simp [solveField, h, sentinelReadsOf, hproc]

/-- Witness for C3: a concrete invocation whose process exits with code 2,
while a valid sentinel with byte 1 is present. -/
theorem solve_field_nonzero_exit_process_error_witness :
    (2 : Nat) ≠ 0 ∧ failInv.proc = ProcResult.fail 2 ∧
    commandFound failInv.pathDirs = true ∧
    ((solveField failInv).outcome = Outcome.processError 2 (argsOf failInv) ∧
     (solveField failInv).reads = []) :=
  ⟨by decide, rfl, by decide,
   solve_field_nonzero_exit_process_error failInv 2 (by decide) rfl (by decide)⟩

/-- C4 (code bug): the rendering of the keyword options. A one-character
key with a value renders as claimed, but a key whose value is Python None
renders as the flag followed by the four-character string None — the loop
appends str(value) unconditionally — not as the bare flag the claim (and
the option maps built by wrappers.solve, which pass None for boolean
flags) requires. -/
theorem solve_field_option_rendering :
    renderOptions [("w".toList, some "681".toList)] = ["-w".toList, "681".toList] ∧
    renderOptions [("no-plots".toList, none)] =
      ["--no-plots".toList, "None".toList] ∧
    renderOptions [("no-plots".toList, none)] ≠ ["--no-plots".toList] := by decide

/-- C5 counterexample: at a concrete invocation whose PATH has no entry
named solve-field, solve_field launches nothing but its outcome is the
printed-message-and-sys.exit(1) termination, not any ToolNotInstalled
error — no such error class exists in the code. -/
theorem solve_field_missing_tool_counterexample :
    commandFound noToolInv.pathDirs = false ∧
    (solveField noToolInv).calls = [] ∧
    (solveField noToolInv).outcome = Outcome.sysExit 1 ∧
    isToolNotInstalled (solveField noToolInv).outcome = false := by decide

/-- C5 as amended: if the PATH scan finds no entry named solve-field, the
external process is never launched and solve_field terminates the whole
process with exit status 1 after printing a diagnostic, instead of
yielding a typed ToolNotInstalled error to its caller. -/
theorem solve_field_missing_tool_amended (inv : Invocation)
    (h : commandFound inv.pathDirs = false) :
    (solveField inv).calls = [] ∧ (solveField inv).outcome = Outcome.sysExit 1 := by
  have h2 : ¬ (commandFound inv.pathDirs = true) := by rw [h]; simp
  constructor <;> simp [solveField, h2]

/-- Witness for the amended C5. -/
theorem solve_field_missing_tool_amended_witness :
    commandFound noToolInv.pathDirs = false ∧
    ((solveField noToolInv).calls = [] ∧
     (solveField noToolInv).outcome = Outcome.sysExit 1) :=
  ⟨by decide, solve_field_missing_tool_amended noToolInv (by decide)⟩

/-- C6: whenever the body runs, exactly one process is launched, its
argument list is the fixed prefix — solve-field, the input path, dir flag
with the workspace, no-plots, new-fits with the output artifact,
no-fits2fits, overwrite — followed by the rendered caller options; and the
expected sentinel path is the workspace, a slash, and root.solved, with
root the basename of the input without its extension. -/
theorem solve_field_fixed_args_and_sentinel_path (inv : Invocation)
    (h : commandFound inv.pathDirs = true) :
    (solveField inv).calls = [argsOf inv] ∧
    argsOf inv = solveFieldCmd :: inv.path :: "--dir".toList :: workspaceOf inv ::
      "--no-plots".toList :: "--new-fits".toList :: artifactOf inv ::
      "--no-fits2fits".toList :: "--overwrite".toList :: renderOptions inv.options ∧
    solvedFileOf inv = workspaceOf inv ++ '/' :: (rootOf inv ++ ".solved".toList) ∧
    rootOf inv = (splitext (basename inv.path)).1 := by
  refine ⟨?_, rfl, solvedFileOf_eq inv, rfl⟩
  simp [solveField, h]

/-- Witness for C6 at a concrete invocation. -/
theorem solve_field_fixed_args_and_sentinel_path_witness :
    commandFound okInv.pathDirs = true ∧
    ((solveField okInv).calls = [argsOf okInv] ∧
     argsOf okInv = solveFieldCmd :: okInv.path :: "--dir".toList :: workspaceOf okInv ::
       "--no-plots".toList :: "--new-fits".toList :: artifactOf okInv ::
       "--no-fits2fits".toList :: "--overwrite".toList :: renderOptions okInv.options ∧
     solvedFileOf okInv = workspaceOf okInv ++ '/' :: (rootOf okInv ++ ".solved".toList) ∧
     rootOf okInv = (splitext (basename okInv.path)).1) :=
  ⟨by decide, solve_field_fixed_args_and_sentinel_path okInv (by decide)⟩

/-- C7 counterexample: a PATH directory holding a non-executable entry
named solve-field. The scan in the source (a bare os.path.exists test)
accepts it, while the prober the claim describes — which demands an
executable file — rejects it. -/
theorem prober_nonexecutable_counterexample :
    commandFound nonExecDirs = true ∧ specIsAvailable nonExecDirs = false := by decide

/-- C7 as amended: the scan tests mere existence, not executability — it
returns true exactly when some directory on the PATH list has an entry
named solve-field, executable or not. -/
theorem prober_existence_scan (dirs : List (List DirEnt)) :
    commandFound dirs = true ↔ ∃ d ∈ dirs, ∃ e ∈ d, e.name = solveFieldCmd := by
  simp [commandFound, List.any_eq_true, beq_iff_eq]

/-- C8 counterexample: an except clause for subprocess.CalledProcessError
— the process-failure class — also catches AstrometryNetUnsolvedField,
because the latter is declared as its subclass; so a caller cannot branch
on a process failure without also capturing the unsolved-field result. -/
theorem unsolved_caught_by_process_error_handler :
    catchesB ExcClass.calledProcessError ExcClass.astrometryNetUnsolvedField = true := by
  decide

/-- C8 as amended: the two classes are distinct and an unsolved-field
handler does not capture a plain CalledProcessError, so callers can branch
separately by handling AstrometryNetUnsolvedField first; but since it
subclasses CalledProcessError, a handler for the latter also captures the
former. The unsolved outcome itself carries the input path, as the run of
the embedded code on a concrete zero-byte sentinel shows. -/
theorem unsolved_field_class_relation :
    ExcClass.astrometryNetUnsolvedField ≠ ExcClass.calledProcessError ∧
    catchesB ExcClass.astrometryNetUnsolvedField ExcClass.calledProcessError = false ∧
    catchesB ExcClass.calledProcessError ExcClass.astrometryNetUnsolvedField = true ∧
    (solveField { okInv with sentinel := some [0] }).outcome =
      Outcome.unsolvedField okInv.path := by decide

/-- C9: image2xy launches exactly image2xy, the input path, -o and the
output path; on a zero exit it returns the output path, a nonzero exit
propagates as CalledProcessError with the exit code and the argument list.
The output path lives in the system temporary directory, begins with the
root of the input basename and ends in .fits. -/
theorem image2xy_behaviour (path tmpDir uniq : Str) (c : Nat) :
    image2xy path tmpDir uniq ProcResult.ok = XYResult.ok (image2xyOut path tmpDir uniq) ∧
    image2xy path tmpDir uniq (ProcResult.fail c) =
      XYResult.procError c (image2xyArgsOf path tmpDir uniq) ∧
    image2xyArgsOf path tmpDir uniq =
      ["image2xy".toList, path, "-o".toList, image2xyOut path tmpDir uniq] ∧
    List.IsPrefix (tmpDir ++ '/' :: (splitext (basename path)).1)
      (image2xyOut path tmpDir uniq) ∧
    List.IsSuffix ".fits".toList (image2xyOut path tmpDir uniq) := by
  refine ⟨rfl, rfl, rfl, ?_, ?_⟩
  · refine ⟨"_sources_".toList ++ uniq ++ ".fits".toList, ?_⟩
    unfold image2xyOut tmpName
    simp
  · refine ⟨tmpDir ++ '/' :: ((splitext (basename path)).1 ++ "_sources_".toList ++ uniq), ?_⟩
    unfold image2xyOut tmpName
    simp

/-- C10: the output artifact is allocated in the system temporary
directory as a sibling of the workspace; provided the random component of
its name has no slash and tempfile gave the two allocations distinct
names, the artifact path is not in the tree rooted at the workspace, and
if the process created a file there it is still present after solve_field
finishes, on every outcome. -/
theorem artifact_outside_workspace_survives (inv : Invocation)
    (ha : ('/' : Char) ∉ inv.aUniq)
    (hne : artifactOf inv ≠ workspaceOf inv)
    (hfs : artifactOf inv ∈ inv.fs) :
    underTree (workspaceOf inv) (artifactOf inv) = false ∧
    artifactOf inv ∈ (solveField inv).fs ∧
    artifactOf inv =
      inv.tmpDir ++ '/' ::
        ((rootOf inv ++ "_astrometry_".toList) ++ inv.aUniq ++ extOf inv) := by
  have hu := artifact_not_under_workspace inv ha hne
  refine ⟨hu, ?_, artifactOf_structure inv⟩
  by_cases h : commandFound inv.pathDirs = true
  · have hfs2 : (solveField inv).fs = rmtree (workspaceOf inv) inv.fs := by
      simp [solveField, h]
    rw [hfs2]
    exact List.mem_filter.mpr ⟨hfs, by rw [hu]; rfl⟩
  · have hfs2 : (solveField inv).fs = inv.fs := by simp [solveField, h]
    rw [hfs2]
    exact hfs

/-- Witness for C10 at a concrete invocation whose filesystem holds the
artifact the process wrote. -/
theorem artifact_outside_workspace_survives_witness :
    ('/' : Char) ∉ okInv.aUniq ∧
    artifactOf okInv ≠ workspaceOf okInv ∧
    artifactOf okInv ∈ okInv.fs ∧
    (underTree (workspaceOf okInv) (artifactOf okInv) = false ∧
     artifactOf okInv ∈ (solveField okInv).fs ∧
     artifactOf okInv =
       okInv.tmpDir ++ '/' ::
         ((rootOf okInv ++ "_astrometry_".toList) ++ okInv.aUniq ++ extOf okInv)) :=
  ⟨by decide, by decide, by decide,
   artifact_outside_workspace_survives okInv (by decide) (by decide) (by decide)⟩

end AW
